import Mathlib

/-!
Verification of the read-only storage synchronization subsystem of
CLIProxyAPI: config state and side-file persistence (internal/config),
the Git sync scheduler (internal/store, `GitScheduler`), and the
management control plane (internal/api/handlers/management).

The Go code is shallowly embedded: file system effects are modelled by an
explicit side-file state, goroutine-visible scheduler state by a record,
and the HTTP layer by explicit request bodies and response values.
-/

/-- In-memory configuration fields relevant to the subsystem: the atomic
`readOnlyStorage` flag (accessor `IsReadOnlyStorage` / `SetReadOnlyStorage`)
and `syncIntervalMinutes` (accessor `SyncIntervalMinutes` /
`SetSyncIntervalMinutes`) of `config.Config`. -/
structure ConfigState where
  readOnly : Bool
  syncIntervalMinutes : Int
deriving DecidableEq, Repr

/-- The persisted side document `ReadOnlyStorageConfig`
(`data/read_only_storage.json`): fields `read_only` and
`sync_interval_minutes` (with `omitempty`, so an absent field unmarshals to
the zero value 0). -/
structure ReadOnlyStorageConfig where
  readOnly : Bool
  syncIntervalMinutes : Int
deriving DecidableEq, Repr

/-- Observable state of the side file at a given path: absent
(`os.IsNotExist` read error), failing to read for another reason,
present but not valid JSON, or present with a parsed document. -/
inductive SideFile where
  | absent
  | readFailure
  | invalidJson
  | valid (doc : ReadOnlyStorageConfig)
deriving DecidableEq, Repr

/-- The Go function `config.LoadReadOnlyStorageConfig(setter, path)`:
reads the side file and updates the in-memory state through the setter.
Returns the updated state together with the error (if any). -/
def loadReadOnlyStorageConfig (file : SideFile) (st : ConfigState) :
    ConfigState × Option String :=
  match file with
  | .absent => ({ st with readOnly := false }, none)
  | .readFailure => (st, some "failed to read read-only storage config file")
  | .invalidJson =>
      ({ st with readOnly := false }, some "failed to parse read-only storage config")
  | .valid doc =>
      let st1 := { st with readOnly := doc.readOnly }
      let st2 :=
        if doc.syncIntervalMinutes > 0 then
          { st1 with syncIntervalMinutes := doc.syncIntervalMinutes }
        else st1
      (st2, none)

/-- The Go function `config.PersistReadOnlyState(readOnly, syncIntervalMinutes,
path)`: reads the existing side file (substituting a minimal default document
when absent), overwrites both fields and writes the file back. A read failure
other than absence, or a parse failure, aborts with an error before writing. -/
def persistReadOnlyState (readOnly : Bool) (syncIntervalMinutes : Int)
    (file : SideFile) : SideFile × Option String :=
  match file with
  | .readFailure => (file, some "failed to read read-only storage config file")
  | .invalidJson => (file, some "failed to parse read-only storage config")
  | .absent =>
      (.valid { readOnly := readOnly, syncIntervalMinutes := syncIntervalMinutes }, none)
  | .valid _ =>
      (.valid { readOnly := readOnly, syncIntervalMinutes := syncIntervalMinutes }, none)

/-- The handler method `persistBothToJSONAfterUnlock(readOnly,
syncIntervalMinutes)`: reads `data/read_only_storage.json` (substituting the
default document `\x7b"read_only": false\x7d` on any read error), overwrites
both fields and writes back; a parse failure of an existing file is logged and
leaves the file untouched. -/
def persistBothToJSONAfterUnlock (readOnly : Bool) (syncIntervalMinutes : Int)
    (file : SideFile) : SideFile :=
  match file with
  | .invalidJson => file
  | .readFailure =>
      .valid { readOnly := readOnly, syncIntervalMinutes := syncIntervalMinutes }
  | .absent =>
      .valid { readOnly := readOnly, syncIntervalMinutes := syncIntervalMinutes }
  | .valid _ =>
      .valid { readOnly := readOnly, syncIntervalMinutes := syncIntervalMinutes }

deriving instance DecidableEq for Except

/-- State of `store.GitScheduler`. `stopGeneration` counts replacements of the
stop channel, `loopSpawns` counts launched run-loop goroutines, and
`pendingLocalChanges` is the result the `GitTokenStore` collaborator would
report from `HasPendingLocalChanges`. -/
structure GitScheduler where
  config : Option ConfigState
  tokenStorePresent : Bool
  running : Bool
  stopGeneration : Nat
  loopSpawns : Nat
  pendingLocalChanges : Except String Bool
deriving DecidableEq, Repr

/-- The method `GitScheduler.Start`: stops an existing loop first, fails when
the configuration or token store reference is unset, otherwise marks the
scheduler running and launches the loop goroutine. -/
def GitScheduler.start (s : GitScheduler) : GitScheduler × Option String :=
  let s1 :=
    if s.running then
      { s with running := false, stopGeneration := s.stopGeneration + 1 }
    else s
  match s1.config with
  | none => (s1, some "configuration is nil")
  | some _ =>
      if s1.tokenStorePresent = false then (s1, some "token store is nil")
      else ({ s1 with running := true, loopSpawns := s1.loopSpawns + 1 }, none)

/-- The method `GitScheduler.Stop`: a no-op when already stopped, otherwise
closes the stop channel and marks the scheduler stopped. -/
def GitScheduler.stop (s : GitScheduler) : GitScheduler :=
  if s.running then
    { s with running := false, stopGeneration := s.stopGeneration + 1 }
  else s

/-- Which lifecycle methods `UpdateConfig` invoked, in order. -/
inductive SchedulerCall where
  | startCall
  | stopCall
deriving DecidableEq, Repr

/-- The method `GitScheduler.UpdateConfig(cfg)`: rejects a nil configuration,
otherwise replaces the held configuration and calls `Start`/`Stop` only when
the desired run state (the new read-only flag) differs from the current one. -/
def GitScheduler.updateConfig (s : GitScheduler) (cfg : Option ConfigState) :
    GitScheduler × Option String × List SchedulerCall :=
  match cfg with
  | none => (s, some "configuration is nil", [])
  | some c =>
      let s1 := { s with config := some c }
      let shouldRun := c.readOnly
      let isRunning := s1.running
      if shouldRun && !isRunning then
        let r := s1.start
        (r.1, r.2, [.startCall])
      else if !shouldRun && isRunning then
        (s1.stop, none, [.stopCall])
      else
        (s1, none, [])

/-- The method `GitScheduler.HasPendingLocalChanges`: errors when the token
store is unset, otherwise delegates to the collaborator. -/
def GitScheduler.hasPendingLocalChanges (s : GitScheduler) : Except String Bool :=
  if s.tokenStorePresent then s.pendingLocalChanges else .error "token store is nil"

/-- Observable events of one iteration of the scheduler run loop.
`waitTimerOrCancel n` is the `select` on an `n`-minute interval timer versus
the cancellation context; `idleWaitOneSecond` is the `select` on a one-second
tick versus the cancellation context used while read-only is disabled. -/
inductive LoopEvent where
  | exitLoop
  | syncCall
  | waitTimerOrCancel (minutes : Int)
  | idleWaitOneSecond
deriving DecidableEq, Repr

/-- Interval computation of the run loop: `SyncIntervalMinutes()` minutes,
defaulting to 60 minutes when that duration is non-positive. -/
def effectiveSyncInterval (minutes : Int) : Int :=
  if minutes ≤ 0 then 60 else minutes

/-- One iteration of `GitScheduler.run`: after re-reading `config` and
`running` under the lock, exit when no longer running; when read-only is
enabled, sync first and then wait on the interval timer or cancellation;
otherwise idle for up to one second and re-check. -/
def runIteration (cfg : Option ConfigState) (running : Bool) : List LoopEvent :=
  if running = false then [.exitLoop]
  else
    match cfg with
    | some c =>
        if c.readOnly then
          [.syncCall, .waitTimerOrCancel (effectiveSyncInterval c.syncIntervalMinutes)]
        else [.idleWaitOneSecond]
    | none => [.idleWaitOneSecond]

/-- A local git repository as seen through `repo.Reference(name, true)`:
an association of fully resolved reference names to commit hashes. -/
structure GitRepo where
  refs : List (String × Nat)
deriving DecidableEq, Repr

/-- Resolution of a reference name, `repo.Reference(name, resolved=true)`. -/
def GitRepo.reference (r : GitRepo) (name : String) : Option Nat :=
  (r.refs.find? (fun p => p.1 == name)).map Prod.snd

/-- Outcome of `repo.Fetch`: new objects fetched, `git.NoErrAlreadyUpToDate`,
or a genuine fetch error. -/
inductive FetchOutcome where
  | fetched
  | alreadyUpToDate
  | fetchFailed
deriving DecidableEq, Repr

/-- Environment of one `pullChanges` attempt: the configured repository
directory, whether `git.PlainOpen` succeeds, the fetch outcome, the
post-fetch reference store, and whether obtaining the worktree and the hard
reset succeed. -/
structure PullEnv where
  repoDir : String
  openOk : Bool
  fetchOutcome : FetchOutcome
  repo : GitRepo
  worktreeOk : Bool
  resetOk : Bool
deriving DecidableEq, Repr

/-- Git operations a pull attempt can issue against the repository. -/
inductive GitOp where
  | fetchOp (remoteName : String) (force : Bool)
  | hardResetOp (commit : Nat)
  | mergePullOp (remoteName : String)
deriving DecidableEq, Repr

/-- The reference-resolution chain of `GitScheduler.pullChanges`: try
`refs/remotes/origin/HEAD`, then `refs/remotes/origin/main`, then
`refs/remotes/origin/master`; the first that resolves wins. -/
def resolveRemoteRef (r : GitRepo) : Option (String × Nat) :=
  match r.reference "refs/remotes/origin/HEAD" with
  | some h => some ("refs/remotes/origin/HEAD", h)
  | none =>
      match r.reference "refs/remotes/origin/main" with
      | some h => some ("refs/remotes/origin/main", h)
      | none =>
          match r.reference "refs/remotes/origin/master" with
          | some h => some ("refs/remotes/origin/master", h)
          | none => none

/-- The method `GitScheduler.pullChanges`: open the repository, force-fetch
from the remote named `origin`, resolve the remote branch reference, and hard
reset the worktree to the resolved commit. Returns the sync result (the commit
reset to on success) together with the trace of git operations issued. -/
def pullChanges (env : PullEnv) : Except String Nat × List GitOp :=
  if env.repoDir = "" then (.error "repository directory not configured", [])
  else if env.openOk = false then (.error "failed to open repository", [])
  else
    match env.fetchOutcome with
    | .fetchFailed => (.error "failed to fetch changes", [.fetchOp "origin" true])
    | _ =>
        match resolveRemoteRef env.repo with
        | none =>
            (.error "failed to find remote branch reference", [.fetchOp "origin" true])
        | some (_, h) =>
            if env.worktreeOk = false then
              (.error "failed to get worktree", [.fetchOp "origin" true])
            else if env.resetOk = false then
              (.error "failed to reset to remote", [.fetchOp "origin" true, .hardResetOp h])
            else (.ok h, [.fetchOp "origin" true, .hardResetOp h])

/-- A JSON value as it appears in a `map[string]any` bound from a request
body. JSON numbers decode as `float64` (`jfloat`, modelled by a rational);
the `int` case mirrors the corresponding branch of the Go type switch. -/
inductive JVal where
  | jbool (b : Bool)
  | jfloat (q : Rat)
  | jint (i : Int)
  | jstr (s : String)
  | jnull
deriving DecidableEq, Repr

/-- Whether the value landed in one of the numeric branches of the type
switch in `parseIntField`. -/
def JVal.isNumber : JVal → Bool
  | .jfloat _ => true
  | .jint _ => true
  | _ => false

/-- A bound request body: key/value pairs of the JSON object. -/
abbrev JsonBody := List (String × JVal)

/-- Lookup of a key in the bound body map. -/
def lookupKey (m : JsonBody) (k : String) : Option JVal :=
  (m.find? (fun p => p.1 == k)).map Prod.snd

/-- The handler method `parseBoolField(c, primaryKey, altKey)`: bind the body
to a map (`none` models a bind error), take the primary key when present with
a boolean value, otherwise the alternative key; report whether a value was
found. -/
def parseBoolField (body : Option JsonBody) (primaryKey altKey : String) :
    Bool × Bool :=
  match body with
  | none => (false, false)
  | some m =>
      match lookupKey m primaryKey with
      | some (.jbool b) => (b, true)
      | _ =>
          match lookupKey m altKey with
          | some (.jbool b) => (b, true)
          | _ => (false, false)

/-- One key of `parseIntField`: a `float64` must be a whole number and at
least the minimum before being accepted; an `int` must be at least the
minimum; any other type is rejected as not a number. Returns
(value, found, error). -/
def intFieldFromVal (key : String) (minValue : Int) : JVal → Int × Bool × Option String
  | .jfloat q =>
      if q ≠ (⌊q⌋ : Rat) then (0, true, some (key ++ " must be a whole number"))
      else if ⌊q⌋ < minValue then
        (0, true, some (key ++ " must be at least " ++ toString minValue))
      else (⌊q⌋, true, none)
  | .jint i =>
      if i < minValue then
        (0, true, some (key ++ " must be at least " ++ toString minValue))
      else (i, true, none)
  | _ => (0, true, some (key ++ " must be a number"))

/-- The handler method `parseIntField(c, primaryKey, altKey, min)`: bind the
body to a map, examine the primary key when present (whatever its type),
otherwise the alternative key. -/
def parseIntField (body : Option JsonBody) (primaryKey altKey : String)
    (minValue : Int) : Int × Bool × Option String :=
  match body with
  | none => (0, false, none)
  | some m =>
      match lookupKey m primaryKey with
      | some v => intFieldFromVal primaryKey minValue v
      | none =>
          match lookupKey m altKey with
          | some v => intFieldFromVal altKey minValue v
          | none => (0, false, none)

/-- HTTP responses issued by the management handler and middleware. -/
inductive HttpResponse where
  | okBool (field : String) (value : Bool)
  | okInt (field : String) (value : Int)
  | badRequest (message : String)
  | internalServerError (message : String)
  | unauthorized (message : String)
  | forbiddenResp (message : String)
deriving DecidableEq, Repr

/-- HTTP status code of a response. -/
def HttpResponse.status : HttpResponse → Nat
  | .okBool _ _ => 200
  | .okInt _ _ => 200
  | .badRequest _ => 400
  | .internalServerError _ => 500
  | .unauthorized _ => 401
  | .forbiddenResp _ => 403

/-- The minimum accepted sync interval, `minSyncIntervalMinutes`. -/
def minSyncIntervalMinutes : Int := 1

/-- The management `Handler` state touched by the storage endpoints: the
configuration reference, the (nilable) scheduler reference, the main
configuration file as last written by `SaveConfigPreserveComments`, and the
standalone side file. -/
structure Handler where
  cfg : Option ConfigState
  scheduler : Option GitScheduler
  mainConfigFile : Option ConfigState
  sideFile : SideFile
deriving DecidableEq, Repr

/-- The handler method `ensureCanEnableReadOnly`: when a scheduler is wired,
ask it for pending local changes; an error yields a 500 response, pending
changes a 400 conflict response; otherwise (including when no scheduler is
set) enabling is allowed. `some r` means the request was refused with `r`. -/
def Handler.ensureCanEnableReadOnly (h : Handler) : Option HttpResponse :=
  match h.scheduler with
  | none => none
  | some s =>
      match s.hasPendingLocalChanges with
      | .error e => some (.internalServerError ("Cannot check for pending changes: " ++ e))
      | .ok true =>
          some (.badRequest "Cannot enable read-only mode while there are pending local changes. Please sync changes first.")
      | .ok false => none

/-- The handler method `updateStorageReadOnly(readOnly)`: mutate the config
read-only flag, push the new configuration into the scheduler when one is
wired, persist the main configuration, then persist both fields to the side
file (reading the current sync interval, 0 when the config is nil). -/
def Handler.updateStorageReadOnly (h : Handler) (readOnly : Bool) : Handler :=
  let h1 :=
    match h.cfg with
    | none => h
    | some c =>
        let c1 := { c with readOnly := readOnly }
        let h2 := { h with cfg := some c1 }
        match h2.scheduler with
        | none => h2
        | some s => { h2 with scheduler := some (s.updateConfig (some c1)).1 }
  let h3 := { h1 with mainConfigFile := h1.cfg }
  let currentSyncInterval :=
    match h3.cfg with
    | some c => c.syncIntervalMinutes
    | none => 0
  { h3 with sideFile := persistBothToJSONAfterUnlock readOnly currentSyncInterval h3.sideFile }

/-- The handler method `updateStorageSyncInterval(syncIntervalMinutes)`:
mutate the config interval, push the new configuration into the scheduler
when one is wired, persist the main configuration, then persist both fields
to the side file (reading the current read-only flag, false when nil). -/
def Handler.updateStorageSyncInterval (h : Handler) (syncIntervalMinutes : Int) : Handler :=
  let h1 :=
    match h.cfg with
    | none => h
    | some c =>
        let c1 := { c with syncIntervalMinutes := syncIntervalMinutes }
        let h2 := { h with cfg := some c1 }
        match h2.scheduler with
        | none => h2
        | some s => { h2 with scheduler := some (s.updateConfig (some c1)).1 }
  let h3 := { h1 with mainConfigFile := h1.cfg }
  let currentReadOnly :=
    match h3.cfg with
    | some c => c.readOnly
    | none => false
  { h3 with sideFile := persistBothToJSONAfterUnlock currentReadOnly syncIntervalMinutes h3.sideFile }

/-- The endpoint handler `PutStorageReadOnly`: parse the boolean under
`read_only` or `value`; when enabling, run the pending-changes guard first;
then apply the update and echo the new flag. -/
def Handler.putStorageReadOnly (h : Handler) (body : Option JsonBody) :
    Handler × HttpResponse :=
  let r := parseBoolField body "read_only" "value"
  if r.2 = false then (h, .badRequest "invalid body")
  else if r.1 then
    match h.ensureCanEnableReadOnly with
    | some resp => (h, resp)
    | none => (h.updateStorageReadOnly r.1, .okBool "read_only" r.1)
  else (h.updateStorageReadOnly r.1, .okBool "read_only" r.1)

/-- The endpoint handler `PutStorageSyncInterval`: parse the integer under
`sync_interval_minutes` or `value` with minimum 1; a parse error or a missing
value yields a 400 response before any mutation; otherwise apply the update
and echo the new interval. -/
def Handler.putStorageSyncInterval (h : Handler) (body : Option JsonBody) :
    Handler × HttpResponse :=
  let r := parseIntField body "sync_interval_minutes" "value" minSyncIntervalMinutes
  match r.2.2 with
  | some msg => (h, .badRequest msg)
  | none =>
      if r.2.1 = false then (h, .badRequest "invalid body")
      else (h.updateStorageSyncInterval r.1, .okInt "sync_interval_minutes" r.1)

/-- Per-IP failed-attempt record `attemptInfo`; the zero `time.Time` of
`blockedUntil` is modelled as `none`. -/
structure AttemptInfo where
  count : Nat
  blockedUntil : Option Nat
deriving DecidableEq, Repr

/-- The `failedAttempts` map of the handler, keyed by client IP. -/
abbrev AttemptMap := List (String × AttemptInfo)

/-- Lookup of an IP in the failed-attempts map. -/
def lookupAttempt (m : AttemptMap) (ip : String) : Option AttemptInfo :=
  (m.find? (fun p => p.1 == ip)).map Prod.snd

/-- Store an entry for an IP in the failed-attempts map. -/
def setAttempt (m : AttemptMap) (ip : String) (info : AttemptInfo) : AttemptMap :=
  (ip, info) :: m.eraseP (fun p => p.1 == ip)

/-- The constant `maxFailures` of the middleware. -/
def maxFailures : Nat := 5

/-- The constant `banDuration` of the middleware, 30 minutes in seconds. -/
def banDurationSeconds : Nat := 30 * 60

/-- The `fail` closure of the middleware: create or fetch the entry of the
calling IP, increment its counter, and on reaching the threshold set the ban
expiry and reset the counter to zero. Time is measured in seconds. -/
def recordFailedAttempt (now : Nat) (ip : String) (m : AttemptMap) : AttemptMap :=
  let prev := (lookupAttempt m ip).getD { count := 0, blockedUntil := none }
  let newCount := prev.count + 1
  if newCount ≥ maxFailures then
    setAttempt m ip { count := 0, blockedUntil := some (now + banDurationSeconds) }
  else
    setAttempt m ip { count := newCount, blockedUntil := prev.blockedUntil }

/-- The success path of the middleware for remote callers: reset the counter
and ban of a previously-tracked IP; an untracked IP stays untracked. -/
def resetAttempt (m : AttemptMap) (ip : String) : AttemptMap :=
  match lookupAttempt m ip with
  | none => m
  | some _ => setAttempt m ip { count := 0, blockedUntil := none }

/-- The pre-credential ban gate of the middleware for remote callers:
a tracked IP with an unexpired ban is refused (`Sum.inr` carries the
remaining seconds); an expired ban is reset in place; otherwise the map
passes through unchanged. -/
def banGate (now : Nat) (ip : String) (m : AttemptMap) : AttemptMap ⊕ Nat :=
  match lookupAttempt m ip with
  | some ai =>
      match ai.blockedUntil with
      | some t =>
          if now < t then .inr (t - now)
          else .inl (setAttempt m ip { count := 0, blockedUntil := none })
      | none => .inl m
  | none => .inl m

/-- The Authorization-header parsing of the middleware:
`strings.SplitN(header, " ", 2)`; when the first part lowercases to
`bearer`, the remainder is the credential, otherwise the whole header. -/
def bearerToken (ah : String) : String :=
  match ah.splitOn " " with
  | [] => ah
  | [_] => ah
  | p0 :: rest => if p0.toLower = "bearer" then String.intercalate " " rest else ah

/-- Extraction of the provided management key: the Authorization header when
non-empty (through `bearerToken`), else the `X-Management-Key` header.
Absent headers are the empty string. -/
def extractProvidedKey (authorizationHeader xManagementKey : String) : String :=
  let p := if authorizationHeader ≠ "" then bearerToken authorizationHeader else ""
  if p = "" then xManagementKey else p

/-- Per-request environment of the middleware: caller address, current time
(seconds), the two credential headers, the configuration reference
(`cfgPresent` false models a nil config), the environment secret and the
derived remote override, and the configured local password. -/
structure MwEnv where
  clientIP : String
  now : Nat
  authorizationHeader : String
  xManagementKey : String
  cfgPresent : Bool
  cfgAllowRemote : Bool
  cfgSecretKey : String
  allowRemoteOverride : Bool
  envSecret : String
  localPassword : String
deriving DecidableEq, Repr

/-- Outcome of the middleware: pass the request on (`c.Next()`) or abort
with a response. -/
inductive MwOutcome where
  | nextOk
  | aborted (resp : HttpResponse)
deriving DecidableEq, Repr

/-- The ban refusal message, carrying the remaining ban duration. -/
def banMessage (remainingSeconds : Nat) : String :=
  "IP banned due to too many failed attempts. Try again in " ++
    toString remainingSeconds ++ "s"

/-- The credential phase of the middleware, shared by local and remote
callers: refuse when neither secret is configured; extract the provided key
and refuse its absence; accept the local password for local callers, then the
environment secret (exact match), then the configured secret hash (bcrypt
verification through the `bcryptMatches` oracle); failures of remote callers
run the `fail` closure, successes reset their tracked entry. -/
def middlewareAuth (bcryptMatches : String → String → Bool) (env : MwEnv)
    (m : AttemptMap) (failEnabled : Bool) (secretHash : String)
    (localClient : Bool) : AttemptMap × MwOutcome :=
  if secretHash = "" ∧ env.envSecret = "" then
    (m, .aborted (.forbiddenResp "remote management key not set"))
  else
    let provided := extractProvidedKey env.authorizationHeader env.xManagementKey
    if provided = "" then
      ((if failEnabled then recordFailedAttempt env.now env.clientIP m else m),
       .aborted (.unauthorized "missing management key"))
    else if localClient ∧ env.localPassword ≠ "" ∧ provided = env.localPassword then
      (m, .nextOk)
    else if env.envSecret ≠ "" ∧ provided = env.envSecret then
      ((if localClient then m else resetAttempt m env.clientIP), .nextOk)
    else if secretHash = "" ∨ bcryptMatches secretHash provided = false then
      ((if failEnabled then recordFailedAttempt env.now env.clientIP m else m),
       .aborted (.unauthorized "invalid management key"))
    else
      ((if localClient then m else resetAttempt m env.clientIP), .nextOk)

/-- The management middleware `Handler.Middleware()` on one request: classify
the caller as local by loopback address; derive `allowRemote` and the secret
hash from the configuration and the environment override; for remote callers
run the ban gate and the remote-access gate before the credential phase. -/
def middleware (bcryptMatches : String → String → Bool) (env : MwEnv)
    (m : AttemptMap) : AttemptMap × MwOutcome :=
  let localClient := env.clientIP = "127.0.0.1" ∨ env.clientIP = "::1"
  let allowRemote :=
    (if env.cfgPresent then env.cfgAllowRemote else false) || env.allowRemoteOverride
  let secretHash := if env.cfgPresent then env.cfgSecretKey else ""
  if localClient then
    middlewareAuth bcryptMatches env m false secretHash true
  else
    match banGate env.now env.clientIP m with
    | .inr remaining => (m, .aborted (.forbiddenResp (banMessage remaining)))
    | .inl m1 =>
        if allowRemote = false then
          (m1, .aborted (.forbiddenResp "remote management disabled"))
        else middlewareAuth bcryptMatches env m1 true secretHash false

/-- Concrete pull environment used to witness the sync-attempt theorem. -/
def c1WitnessEnv : PullEnv :=
  { repoDir := "data/repo", openOk := true, fetchOutcome := .fetched,
    repo := { refs := [("refs/remotes/origin/main", 7)] },
    worktreeOk := true, resetOk := true }

/-- Concrete scheduler reporting pending local changes, for witnesses. -/
def c3WitnessScheduler : GitScheduler :=
  { config := some { readOnly := false, syncIntervalMinutes := 5 },
    tokenStorePresent := true, running := false, stopGeneration := 0,
    loopSpawns := 0, pendingLocalChanges := .ok true }

/-- Concrete handler wired to `c3WitnessScheduler`, for witnesses. -/
def c3WitnessHandler : Handler :=
  { cfg := some { readOnly := false, syncIntervalMinutes := 5 },
    scheduler := some c3WitnessScheduler, mainConfigFile := none, sideFile := .absent }

/-- Concrete handler with no scheduler wired, for witnesses. -/
def c9WitnessHandler : Handler :=
  { cfg := some { readOnly := false, syncIntervalMinutes := 5 },
    scheduler := none, mainConfigFile := none, sideFile := .absent }

/-- Concrete handler for the sync-interval endpoint witness. -/
def c7WitnessHandler : Handler :=
  { cfg := some { readOnly := true, syncIntervalMinutes := 5 },
    scheduler := none, mainConfigFile := none, sideFile := .absent }

/-- Concrete remote-caller middleware environment, for witnesses. -/
def c4WitnessEnv : MwEnv :=
  { clientIP := "203.0.113.9", now := 1000, authorizationHeader := "Bearer key",
    xManagementKey := "", cfgPresent := true, cfgAllowRemote := true,
    cfgSecretKey := "hash", allowRemoteOverride := false, envSecret := "",
    localPassword := "" }

/-- Attempt map with an unexpired ban for `c4WitnessEnv`, for witnesses. -/
def c4WitnessMap : AttemptMap :=
  [("203.0.113.9", { count := 0, blockedUntil := some 1600 })]

/-- Remote caller with remote management disabled and no secrets set. -/
def c10CounterEnv : MwEnv :=
  { clientIP := "203.0.113.5", now := 0, authorizationHeader := "", xManagementKey := "",
    cfgPresent := true, cfgAllowRemote := false, cfgSecretKey := "",
    allowRemoteOverride := false, envSecret := "", localPassword := "pw" }

/-- Loopback caller presenting the correct configured local password while no
management secret is set. -/
def c10WitnessEnv : MwEnv :=
  { clientIP := "127.0.0.1", now := 0, authorizationHeader := "pw", xManagementKey := "",
    cfgPresent := true, cfgAllowRemote := true, cfgSecretKey := "",
    allowRemoteOverride := false, envSecret := "", localPassword := "pw" }

theorem lookupAttempt_setAttempt (m : AttemptMap) (ip : String) (info : AttemptInfo) :
    lookupAttempt (setAttempt m ip info) ip = some info := by
  simp [lookupAttempt, setAttempt, List.find?]

theorem intFieldFromVal_notNumber (key : String) (mv : Int) (v : JVal)
    (hnum : v.isNumber = false) :
    intFieldFromVal key mv v = (0, true, some (key ++ " must be a number")) := by
  cases v <;> simp_all [JVal.isNumber, intFieldFromVal]

theorem intFieldFromVal_jfloat_frac (key : String) (mv : Int) (q : Rat)
    (hf : q ≠ (⌊q⌋ : Rat)) :
    intFieldFromVal key mv (.jfloat q) = (0, true, some (key ++ " must be a whole number")) := by
  simp only [intFieldFromVal]
  rw [if_pos hf]

theorem intFieldFromVal_jfloat_low (key : String) (mv : Int) (q : Rat)
    (hw : q = (⌊q⌋ : Rat)) (hlt : ⌊q⌋ < mv) :
    intFieldFromVal key mv (.jfloat q) =
      (0, true, some (key ++ " must be at least " ++ toString mv)) := by
  simp only [intFieldFromVal]
  rw [if_neg (not_not_intro hw), if_pos hlt]

theorem intFieldFromVal_jfloat_accept (key : String) (mv : Int) (q : Rat)
    (hw : q = (⌊q⌋ : Rat)) (hge : mv ≤ ⌊q⌋) :
    intFieldFromVal key mv (.jfloat q) = (⌊q⌋, true, none) := by
  simp only [intFieldFromVal]
  rw [if_neg (not_not_intro hw), if_neg (not_lt.mpr hge)]

/-- Claim C1: a single sync attempt first force-fetches from the remote named
origin, then resolves the branch to sync by trying, in order, the remote HEAD
pointer `refs/remotes/origin/HEAD`, then `origin/main`, then `origin/master`,
taking the first reference that resolves and failing the sync when none
resolve, and finally hard-resets the worktree to the resolved commit; a
merge-preserving pull is never used. -/
theorem c1_pullChanges_fetch_resolve_reset (env : PullEnv)
    (hdir : env.repoDir ≠ "") (hopen : env.openOk = true) :
    (∀ r, GitOp.mergePullOp r ∉ (pullChanges env).2) ∧
    (pullChanges env).2.head? = some (.fetchOp "origin" true) ∧
    (∀ h, env.repo.reference "refs/remotes/origin/HEAD" = some h →
        resolveRemoteRef env.repo = some ("refs/remotes/origin/HEAD", h)) ∧
    (∀ h, env.repo.reference "refs/remotes/origin/HEAD" = none →
        env.repo.reference "refs/remotes/origin/main" = some h →
        resolveRemoteRef env.repo = some ("refs/remotes/origin/main", h)) ∧
    (∀ h, env.repo.reference "refs/remotes/origin/HEAD" = none →
        env.repo.reference "refs/remotes/origin/main" = none →
        env.repo.reference "refs/remotes/origin/master" = some h →
        resolveRemoteRef env.repo = some ("refs/remotes/origin/master", h)) ∧
    (env.fetchOutcome ≠ .fetchFailed → resolveRemoteRef env.repo = none →
        (pullChanges env).1 = .error "failed to find remote branch reference") ∧
    (∀ name h, env.fetchOutcome ≠ .fetchFailed →
        resolveRemoteRef env.repo = some (name, h) →
        env.worktreeOk = true → env.resetOk = true →
        pullChanges env = (.ok h, [.fetchOp "origin" true, .hardResetOp h])) := by
  refine ⟨?_, ?_, ?_, ?_, ?_, ?_, ?_⟩
  · intro r
    unfold pullChanges
    repeat' split
    all_goals simp_all
  · unfold pullChanges
    repeat' split
    all_goals simp_all
  · intro h hh
    unfold resolveRemoteRef
    simp [hh]
  · intro h h0 h1
    unfold resolveRemoteRef
    simp [h0, h1]
  · intro h h0 h1 h2
    unfold resolveRemoteRef
    simp [h0, h1, h2]
  · intro hfo hres
    unfold pullChanges
    rcases env with ⟨dir, op, fo, repo, wt, rs⟩
    simp_all
  · intro name h hfo hres hwt hrs
    unfold pullChanges
    rcases env with ⟨dir, op, fo, repo, wt, rs⟩
    simp_all

/-- Witness for C1: a pull on a repository whose only remote reference is
`origin/main` at commit 7 fetches from origin with force and hard-resets
to 7. -/
theorem c1_pullChanges_fetch_resolve_reset_witness :
    pullChanges c1WitnessEnv = (.ok 7, [.fetchOp "origin" true, .hardResetOp 7]) :=
  (c1_pullChanges_fetch_resolve_reset c1WitnessEnv (by decide) rfl).2.2.2.2.2.2
    "refs/remotes/origin/main" 7 (by decide) (by decide) rfl rfl

/-- Claim C2: in every run-loop iteration with read-only enabled, the loop
syncs first and then waits for the earlier of cancellation or a timer set to
the configured interval in minutes when positive, and to 60 minutes when
non-positive; in particular the first event of such an iteration is the sync
call. -/
theorem c2_runIteration_sync_before_wait (c : ConfigState) (hro : c.readOnly = true) :
    runIteration (some c) true =
      [.syncCall,
        .waitTimerOrCancel (if c.syncIntervalMinutes ≤ 0 then 60 else c.syncIntervalMinutes)] ∧
    (runIteration (some c) true).head? = some .syncCall ∧
    (0 < c.syncIntervalMinutes →
      runIteration (some c) true = [.syncCall, .waitTimerOrCancel c.syncIntervalMinutes]) := by
  unfold runIteration effectiveSyncInterval
  refine ⟨by simp [hro], by simp [hro], ?_⟩
  intro hpos
  simp [hro, not_le.mpr hpos]

/-- Witness for C2: with read-only enabled and a 10-minute interval, an
iteration syncs and then waits on a 10-minute timer. -/
theorem c2_runIteration_sync_before_wait_witness :
    runIteration (some { readOnly := true, syncIntervalMinutes := 10 }) true =
      [.syncCall, .waitTimerOrCancel 10] :=
  (c2_runIteration_sync_before_wait { readOnly := true, syncIntervalMinutes := 10 } rfl).2.2
    (by decide)

/-- Claim C3: enabling read-only through the control plane first consults
`HasPendingLocalChanges`; when it reports true the request is refused with a
400 conflict response and the handler state (config, scheduler, and both
persisted copies) is unchanged; when it reports false the same call
succeeds. -/
theorem c3_putStorageReadOnly_pending_guard (h : Handler) (s : GitScheduler)
    (body : Option JsonBody) (hs : h.scheduler = some s)
    (hb : parseBoolField body "read_only" "value" = (true, true)) :
    (s.hasPendingLocalChanges = .ok true →
      h.putStorageReadOnly body =
        (h, .badRequest "Cannot enable read-only mode while there are pending local changes. Please sync changes first.") ∧
      ((h.putStorageReadOnly body).2).status = 400) ∧
    (s.hasPendingLocalChanges = .ok false →
      (h.putStorageReadOnly body).2 = .okBool "read_only" true) := by
  constructor
  · intro hp
    simp [Handler.putStorageReadOnly, hb, Handler.ensureCanEnableReadOnly, hs, hp,
      HttpResponse.status]
  · intro hp
    simp [Handler.putStorageReadOnly, hb, Handler.ensureCanEnableReadOnly, hs, hp]

/-- Witness for C3: a handler whose scheduler reports pending changes refuses
the enabling request and is left unchanged. -/
theorem c3_putStorageReadOnly_pending_guard_witness :
    c3WitnessHandler.putStorageReadOnly (some [("read_only", .jbool true)]) =
      (c3WitnessHandler,
        .badRequest "Cannot enable read-only mode while there are pending local changes. Please sync changes first.") :=
  ((c3_putStorageReadOnly_pending_guard c3WitnessHandler c3WitnessScheduler _ rfl
      (by decide)).1 (by decide)).1

/-- Claim C4: for a non-local caller, each failed authentication attempt
increments that IP's failure counter; on reaching the threshold of 5 a ban
expiry 30 minutes ahead is set and the counter resets to zero; while the ban
is unexpired every request is refused with the remaining ban duration before
any credential is consulted; and a successful authentication from a
previously-tracked IP resets its counter and ban. -/
theorem c4_middleware_bruteforce (bc : String → String → Bool) (env : MwEnv)
    (m : AttemptMap) (hnl : ¬(env.clientIP = "127.0.0.1" ∨ env.clientIP = "::1")) :
    maxFailures = 5 ∧ banDurationSeconds = 30 * 60 ∧
    (∀ ai t, lookupAttempt m env.clientIP = some ai → ai.blockedUntil = some t →
      env.now < t →
      middleware bc env m = (m, .aborted (.forbiddenResp (banMessage (t - env.now))))) ∧
    (∀ prev, (lookupAttempt m env.clientIP).getD { count := 0, blockedUntil := none } = prev →
      (prev.count + 1 < maxFailures →
        lookupAttempt (recordFailedAttempt env.now env.clientIP m) env.clientIP =
          some { count := prev.count + 1, blockedUntil := prev.blockedUntil }) ∧
      (maxFailures ≤ prev.count + 1 →
        lookupAttempt (recordFailedAttempt env.now env.clientIP m) env.clientIP =
          some { count := 0, blockedUntil := some (env.now + banDurationSeconds) })) ∧
    (∀ sh pv, sh = (if env.cfgPresent then env.cfgSecretKey else "") →
      pv = extractProvidedKey env.authorizationHeader env.xManagementKey →
      lookupAttempt m env.clientIP = none →
      ((if env.cfgPresent then env.cfgAllowRemote else false) || env.allowRemoteOverride) = true →
      sh ≠ "" → pv ≠ "" → ¬(env.envSecret ≠ "" ∧ pv = env.envSecret) →
      bc sh pv = false →
      middleware bc env m = (recordFailedAttempt env.now env.clientIP m,
        .aborted (.unauthorized "invalid management key"))) ∧
    (∀ ai, lookupAttempt m env.clientIP = some ai → ai.blockedUntil = none →
      ((if env.cfgPresent then env.cfgAllowRemote else false) || env.allowRemoteOverride) = true →
      env.envSecret ≠ "" →
      extractProvidedKey env.authorizationHeader env.xManagementKey = env.envSecret →
      middleware bc env m = (resetAttempt m env.clientIP, .nextOk) ∧
      lookupAttempt (resetAttempt m env.clientIP) env.clientIP =
        some { count := 0, blockedUntil := none }) := by
  refine ⟨rfl, rfl, ?_, ?_, ?_, ?_⟩
  · intro ai t hai ht hnow
    simp [middleware, hnl, banGate, hai, ht, hnow]
  · intro prev hprev
    constructor
    · intro hlt
      simp [recordFailedAttempt, hprev, not_le.mpr hlt, lookupAttempt_setAttempt]
    · intro hge
      simp [recordFailedAttempt, hprev, hge, lookupAttempt_setAttempt]
  · intro sh pv hsh hpv hnone hallow hshne hpvne hnotenv hbc
    subst hsh hpv
    simp only [middleware, banGate, hnone]
    rw [if_neg hnl]
    simp only [hallow]
    rw [if_neg (by simp)]
    simp only [middlewareAuth]
    rw [if_neg (by intro hcon; exact hshne hcon.1)]
    rw [if_neg hpvne]
    rw [if_neg (by intro hcon; exact hnl.elim (absurd hcon.1 (by simp)))]
    rw [if_neg hnotenv, if_pos (Or.inr hbc)]
    simp
  · intro ai hai hnb hallow henvne hpveq
    refine ⟨?_, ?_⟩
    · simp only [middleware, banGate, hai, hnb]
      rw [if_neg hnl]
      simp only [hallow]
      rw [if_neg (by simp)]
      simp only [middlewareAuth]
      rw [if_neg (by intro hcon; exact henvne hcon.2)]
      rw [if_neg (by rw [hpveq]; exact henvne)]
      rw [if_neg (by intro hcon; exact absurd hcon.1 (by simp))]
      rw [if_pos ⟨henvne, hpveq⟩]
      simp
    · simp [resetAttempt, hai, lookupAttempt_setAttempt]

/-- Witness for C4: a remote caller banned until second 1600 is refused at
second 1000 with the remaining 600 seconds in the message, whatever
credential it presents. -/
theorem c4_middleware_bruteforce_witness :
    middleware (fun _ _ => false) c4WitnessEnv c4WitnessMap =
      (c4WitnessMap, .aborted (.forbiddenResp (banMessage 600))) := by
  have := (c4_middleware_bruteforce (fun _ _ => false) c4WitnessEnv c4WitnessMap
      (by decide)).2.2.1 { count := 0, blockedUntil := some 1600 } 1600
      (by decide) rfl (by decide)
  simpa using this

/-- Claim C5 counterexample: with the token store reference unset, a stopped
scheduler given a read-only configuration does not end up running (`Start` is
called but fails), refuting the unconditional transition of the claim. -/
theorem c5_updateConfig_counterexample :
    (({ config := some { readOnly := false, syncIntervalMinutes := 5 },
        tokenStorePresent := false, running := false, stopGeneration := 0,
        loopSpawns := 0, pendingLocalChanges := .ok false } : GitScheduler).updateConfig
      (some { readOnly := true, syncIntervalMinutes := 5 })).1.running = false := by decide

/-- Claim C5 (amended): for a non-nil configuration, `UpdateConfig` with
read-only true on a stopped scheduler whose token store is set calls `Start`
and ends running; with read-only false on a running scheduler it calls `Stop`
and ends stopped; when the desired and current states match it calls neither,
leaves the phase unchanged and spawns no loop task; a nil configuration
yields an error with no state change. -/
theorem c5_updateConfig_transitions (s : GitScheduler) (c : ConfigState) :
    (c.readOnly = true → s.running = false → s.tokenStorePresent = true →
      (s.updateConfig (some c)).2.2 = [.startCall] ∧
      (s.updateConfig (some c)).1.running = true) ∧
    (c.readOnly = false → s.running = true →
      (s.updateConfig (some c)).2.2 = [.stopCall] ∧
      (s.updateConfig (some c)).1.running = false) ∧
    (c.readOnly = s.running →
      (s.updateConfig (some c)).2.2 = [] ∧
      (s.updateConfig (some c)).1.running = s.running ∧
      (s.updateConfig (some c)).1.loopSpawns = s.loopSpawns) ∧
    s.updateConfig none = (s, some "configuration is nil", []) := by
  refine ⟨?_, ?_, ?_, rfl⟩
  · intro hro hrun htk
    simp [GitScheduler.updateConfig, GitScheduler.start, hro, hrun, htk]
  · intro hro hrun
    simp [GitScheduler.updateConfig, GitScheduler.stop, hro, hrun]
  · intro hro
    rcases hb : s.running <;> rw [hb] at hro <;>
      simp [GitScheduler.updateConfig, hro, hb]

/-- Witness for C5: a stopped scheduler with its token store set, updated with
a read-only configuration, has `Start` called and ends running. -/
theorem c5_updateConfig_transitions_witness :
    ((({ config := some { readOnly := false, syncIntervalMinutes := 5 },
         tokenStorePresent := true, running := false, stopGeneration := 0,
         loopSpawns := 0, pendingLocalChanges := .ok false } : GitScheduler).updateConfig
        (some { readOnly := true, syncIntervalMinutes := 5 })).2.2 = [.startCall] ∧
     (({ config := some { readOnly := false, syncIntervalMinutes := 5 },
         tokenStorePresent := true, running := false, stopGeneration := 0,
         loopSpawns := 0, pendingLocalChanges := .ok false } : GitScheduler).updateConfig
        (some { readOnly := true, syncIntervalMinutes := 5 })).1.running = true) :=
  (c5_updateConfig_transitions _ _).1 rfl rfl rfl

/-- Claim C6: loading the side file sets read-only to false without error when
the file is absent; sets it to false and returns a non-fatal error when the
file is present but not valid JSON (retaining the interval); and when valid
adopts `read_only` and adopts `sync_interval_minutes` only when positive,
retaining the previous interval when it is zero, negative or absent. -/
theorem c6_loadReadOnlyStorageConfig_cases (st : ConfigState) :
    loadReadOnlyStorageConfig .absent st = ({ st with readOnly := false }, none) ∧
    ((loadReadOnlyStorageConfig .invalidJson st).1.readOnly = false ∧
      (loadReadOnlyStorageConfig .invalidJson st).2.isSome = true ∧
      (loadReadOnlyStorageConfig .invalidJson st).1.syncIntervalMinutes =
        st.syncIntervalMinutes) ∧
    (∀ doc : ReadOnlyStorageConfig,
      (loadReadOnlyStorageConfig (.valid doc) st).1.readOnly = doc.readOnly ∧
      (loadReadOnlyStorageConfig (.valid doc) st).2 = none ∧
      (0 < doc.syncIntervalMinutes →
        (loadReadOnlyStorageConfig (.valid doc) st).1.syncIntervalMinutes =
          doc.syncIntervalMinutes) ∧
      (¬0 < doc.syncIntervalMinutes →
        (loadReadOnlyStorageConfig (.valid doc) st).1.syncIntervalMinutes =
          st.syncIntervalMinutes)) := by
  refine ⟨rfl, by simp [loadReadOnlyStorageConfig], ?_⟩
  intro doc
  unfold loadReadOnlyStorageConfig
  refine ⟨?_, ?_, ?_, ?_⟩ <;> dsimp only <;> split <;> simp_all

/-- Witness for C6: loading a valid document with interval 10 over an
in-memory interval of 5 adopts 10. -/
theorem c6_loadReadOnlyStorageConfig_cases_witness :
    (loadReadOnlyStorageConfig (.valid { readOnly := true, syncIntervalMinutes := 10 })
      { readOnly := false, syncIntervalMinutes := 5 }).1.syncIntervalMinutes = 10 :=
  ((c6_loadReadOnlyStorageConfig_cases { readOnly := false, syncIntervalMinutes := 5 }).2.2
    { readOnly := true, syncIntervalMinutes := 10 }).2.2.1 (by decide)

/-- Claim C7: the sync-interval endpoint accepts the value under either
`sync_interval_minutes` or `value`; a non-numeric value is rejected as must
be a number, a fractional one as must be a whole number, a whole number below
one as must be at least 1 — each with a 400 response and no mutation — and a
whole number at least one is accepted, stored and echoed back. -/
theorem c7_putStorageSyncInterval_validation (h : Handler) (m : JsonBody) :
    (∀ v, lookupKey m "sync_interval_minutes" = some v → v.isNumber = false →
        h.putStorageSyncInterval (some m) =
          (h, .badRequest "sync_interval_minutes must be a number")) ∧
    (∀ q : Rat, lookupKey m "sync_interval_minutes" = some (.jfloat q) → q ≠ (⌊q⌋ : Rat) →
        h.putStorageSyncInterval (some m) =
          (h, .badRequest "sync_interval_minutes must be a whole number")) ∧
    (∀ q : Rat, lookupKey m "sync_interval_minutes" = some (.jfloat q) → q = (⌊q⌋ : Rat) →
        ⌊q⌋ < 1 →
        h.putStorageSyncInterval (some m) =
          (h, .badRequest "sync_interval_minutes must be at least 1")) ∧
    (∀ q : Rat, lookupKey m "sync_interval_minutes" = some (.jfloat q) → q = (⌊q⌋ : Rat) →
        1 ≤ ⌊q⌋ →
        (h.putStorageSyncInterval (some m)).2 = .okInt "sync_interval_minutes" ⌊q⌋ ∧
        (∀ c, h.cfg = some c → h.scheduler = none →
          (h.putStorageSyncInterval (some m)).1.cfg =
            some { c with syncIntervalMinutes := ⌊q⌋ })) ∧
    (lookupKey m "sync_interval_minutes" = none →
      (∀ v, lookupKey m "value" = some v → v.isNumber = false →
        h.putStorageSyncInterval (some m) = (h, .badRequest "value must be a number")) ∧
      (∀ q : Rat, lookupKey m "value" = some (.jfloat q) → q = (⌊q⌋ : Rat) → 1 ≤ ⌊q⌋ →
        (h.putStorageSyncInterval (some m)).2 = .okInt "sync_interval_minutes" ⌊q⌋)) := by
  refine ⟨?_, ?_, ?_, ?_, ?_⟩
  · intro v hv hnum
    simp [Handler.putStorageSyncInterval, parseIntField, hv,
      intFieldFromVal_notNumber _ _ _ hnum]
  · intro q hq hfrac
    simp [Handler.putStorageSyncInterval, parseIntField, hq,
      intFieldFromVal_jfloat_frac _ _ _ hfrac]
  · intro q hq hwhole hlt
    simp only [Handler.putStorageSyncInterval, parseIntField, hq,
      intFieldFromVal_jfloat_low "sync_interval_minutes" minSyncIntervalMinutes q hwhole hlt]
    rfl
  · intro q hq hwhole hge
    have hacc := intFieldFromVal_jfloat_accept "sync_interval_minutes"
      minSyncIntervalMinutes q hwhole hge
    constructor
    · simp [Handler.putStorageSyncInterval, parseIntField, hq, hacc]
    · intro c hc hs
      simp [Handler.putStorageSyncInterval, parseIntField, hq, hacc,
        Handler.updateStorageSyncInterval, hc, hs]
  · intro hnone
    constructor
    · intro v hv hnum
      simp [Handler.putStorageSyncInterval, parseIntField, hnone, hv,
        intFieldFromVal_notNumber _ _ _ hnum]
    · intro q hq hwhole hge
      have hacc := intFieldFromVal_jfloat_accept "value"
        minSyncIntervalMinutes q hwhole hge
      simp [Handler.putStorageSyncInterval, parseIntField, hnone, hq, hacc]

/-- Witness for C7: submitting the whole number 7 under the primary key is
accepted and echoed back. -/
theorem c7_putStorageSyncInterval_validation_witness :
    (c7WitnessHandler.putStorageSyncInterval
      (some [("sync_interval_minutes", .jfloat 7)])).2 =
      .okInt "sync_interval_minutes" ⌊(7 : Rat)⌋ :=
  ((c7_putStorageSyncInterval_validation c7WitnessHandler
      [("sync_interval_minutes", .jfloat 7)]).2.2.2.1 7 rfl (by decide) (by decide)).1

/-- Claim C8 counterexample: persisting read-only true with interval 0 to an
absent side file and loading it back over an in-memory interval of 5 leaves
the interval at 5, not at the persisted 0, refuting the round-trip law for
every integer. -/
theorem c8_roundtrip_counterexample :
    (loadReadOnlyStorageConfig (persistReadOnlyState true 0 .absent).1
        { readOnly := false, syncIntervalMinutes := 5 }).1.syncIntervalMinutes = 5 ∧
    (5 : Int) ≠ 0 := by decide

/-- Claim C8 (amended): for every read-only flag, every positive interval and
every side-file state on which `PersistReadOnlyState` succeeds, persisting
and then loading from the same path yields exactly the persisted values in
memory. -/
theorem c8_roundtrip_positive (ro : Bool) (n : Int) (file : SideFile) (st : ConfigState)
    (hn : 0 < n) (hok : (persistReadOnlyState ro n file).2 = none) :
    (loadReadOnlyStorageConfig (persistReadOnlyState ro n file).1 st).1.readOnly = ro ∧
    (loadReadOnlyStorageConfig (persistReadOnlyState ro n file).1 st).1.syncIntervalMinutes = n := by
  cases file <;> simp_all [persistReadOnlyState, loadReadOnlyStorageConfig]

/-- Witness for C8: persisting read-only true with interval 3 to an absent
file and loading it back yields exactly those values. -/
theorem c8_roundtrip_positive_witness :
    (loadReadOnlyStorageConfig (persistReadOnlyState true 3 .absent).1
        { readOnly := false, syncIntervalMinutes := 5 }).1.readOnly = true ∧
    (loadReadOnlyStorageConfig (persistReadOnlyState true 3 .absent).1
        { readOnly := false, syncIntervalMinutes := 5 }).1.syncIntervalMinutes = 3 :=
  c8_roundtrip_positive true 3 .absent { readOnly := false, syncIntervalMinutes := 5 }
    (by decide) (by decide)

/-- Claim C9: with no scheduler wired, the pending-changes guard passes
without consulting anything, so a request enabling read-only succeeds,
mutates the in-memory flag and persists it to both copies, regardless of any
unsynced local changes in the repository. -/
theorem c9_putStorageReadOnly_nil_scheduler (h : Handler) (body : Option JsonBody)
    (c : ConfigState) (hs : h.scheduler = none) (hc : h.cfg = some c)
    (hb : parseBoolField body "read_only" "value" = (true, true)) :
    (h.putStorageReadOnly body).2 = .okBool "read_only" true ∧
    (h.putStorageReadOnly body).1.cfg = some { c with readOnly := true } ∧
    (h.putStorageReadOnly body).1.mainConfigFile = some { c with readOnly := true } ∧
    (h.putStorageReadOnly body).1.sideFile =
      persistBothToJSONAfterUnlock true c.syncIntervalMinutes h.sideFile := by
  simp [Handler.putStorageReadOnly, hb, Handler.ensureCanEnableReadOnly, hs,
    Handler.updateStorageReadOnly, hc]

/-- Witness for C9: a handler without a scheduler accepts the enabling
request. -/
theorem c9_putStorageReadOnly_nil_scheduler_witness :
    (c9WitnessHandler.putStorageReadOnly (some [("read_only", .jbool true)])).2 =
      .okBool "read_only" true :=
  (c9_putStorageReadOnly_nil_scheduler c9WitnessHandler _
    { readOnly := false, syncIntervalMinutes := 5 } rfl rfl (by decide)).1

/-- Claim C10 counterexample: with both secrets empty, a non-local caller
with remote management disabled is refused with the message that remote
management is disabled, not the key-not-set message the claim asserts for
every request. -/
theorem c10_middleware_key_counterexample :
    (middleware (fun _ _ => false) c10CounterEnv []).2 =
      .aborted (.forbiddenResp "remote management disabled") ∧
    (HttpResponse.forbiddenResp "remote management disabled" ≠
      HttpResponse.forbiddenResp "remote management key not set") := by
  constructor
  · decide
  · decide

/-- Claim C10 (amended): when both the configured secret hash and the
environment secret are empty, every loopback request — even one presenting
the correct configured local password — and every non-local request that
passes the ban and remote-access gates is refused with a 403 saying the
remote management key is not set, before the local-password comparison. -/
theorem c10_middleware_no_key_refusal (bc : String → String → Bool) (env : MwEnv)
    (m : AttemptMap)
    (hhash : (if env.cfgPresent then env.cfgSecretKey else "") = "")
    (henv : env.envSecret = "") :
    ((env.clientIP = "127.0.0.1" ∨ env.clientIP = "::1") →
      middleware bc env m = (m, .aborted (.forbiddenResp "remote management key not set"))) ∧
    (¬(env.clientIP = "127.0.0.1" ∨ env.clientIP = "::1") →
      lookupAttempt m env.clientIP = none →
      ((if env.cfgPresent then env.cfgAllowRemote else false) || env.allowRemoteOverride) = true →
      middleware bc env m = (m, .aborted (.forbiddenResp "remote management key not set"))) := by
  constructor
  · intro hl
    simp only [middleware]
    rw [if_pos hl]
    simp only [middlewareAuth]
    rw [if_pos ⟨hhash, henv⟩]
  · intro hnl hnone hallow
    simp only [middleware, banGate, hnone]
    rw [if_neg hnl]
    simp only [hallow]
    rw [if_neg (by simp)]
    simp only [middlewareAuth]
    rw [if_pos ⟨hhash, henv⟩]

/-- Witness for C10: a loopback caller presenting the correct configured
local password is still refused with the key-not-set message. -/
theorem c10_middleware_no_key_refusal_witness :
    middleware (fun _ _ => false) c10WitnessEnv [] =
      ([], .aborted (.forbiddenResp "remote management key not set")) :=
  (c10_middleware_no_key_refusal (fun _ _ => false) c10WitnessEnv [] rfl rfl).1 (Or.inl rfl)
